import Mathlib

/-!
# Verification of the DefTech document assistant core

A shallow embedding, in Lean 4, of the chunking + retrieval engine and the
bounded tool-calling control loop of the `deftech-ai-demo` repository, with
theorems settling the frozen behavioural claims about it.

Conventions used throughout:
* Python lists and dicts become Lean `List`s and association lists
  (`List (String × _)`), preserving insertion order.
* Machine floats (similarity scores, embedding coordinates) are modelled by
  `Rat`; no claim depends on floating-point rounding behaviour.
* Fallible Python code (raised exceptions) becomes `Except`; functions that
  return structured failure values keep them as ordinary data.
* External capabilities (the Cohere chat/embed API, the Qdrant backend, the
  Python `json` module) are environment parameters: the claims quantify over
  them at their interface boundary, exactly as the spec scopes them.
-/

namespace DefTech

/-! ## config.py -/

def CHUNK_SIZE : Nat := 500
def CHUNK_OVERLAP : Nat := 50
def TOP_K_RESULTS : Nat := 5
def MAX_AGENT_STEPS : Nat := 10

def CLASSIFICATION_LEVELS : List String :=
  ["unclassified", "confidential", "secret", "top_secret"]

def MANUAL_TYPES : List String :=
  ["maintenance", "safety", "operations", "training"]

def DOCTRINE_AREAS : List String :=
  ["tactics", "strategy", "logistics", "personnel"]

/-! ## document_processor.py — `DocumentProcessor.chunk_text`

`chunk_text` splits the page text into whitespace-separated words
(`text.split()`), then walks `range(0, len(words), word_chunk_size -
word_overlap)` taking the slice `words[i : i + word_chunk_size]` at each
start index, skipping empty slices.  The word sizes are
`int(config.CHUNK_SIZE * 0.75)` and `int(config.CHUNK_OVERLAP * 0.75)`;
for the configured values `500` and `50` the float truncation coincides
with natural-number division by 4 after multiplying by 3. -/

/-- `int(config.CHUNK_SIZE * 0.75)` = 375. -/
def wordChunkSize : Nat := CHUNK_SIZE * 3 / 4

/-- `int(config.CHUNK_OVERLAP * 0.75)` = 37. -/
def wordOverlap : Nat := CHUNK_OVERLAP * 3 / 4

/-- Python's `str.split()` with no argument: split on whitespace and drop
empty pieces. -/
def pySplit (s : String) : List String :=
  (s.split Char.isWhitespace).filter (fun w => w ≠ "")

/-- The start indices produced by `range(0, n, step)` (for `step > 0`):
`k * step` for `k < ⌈n / step⌉`. -/
def chunkStarts (n step : Nat) : List Nat :=
  (List.range ((n + step - 1) / step)).map (fun k => k * step)

/-- The successive values of the loop variable `chunk_words` in
`DocumentProcessor.chunk_text`: the slice `words[i : i + size]` at each
start index, kept only when non-empty (`if chunk_words:`). -/
def wordChunksWith (size overlap : Nat) (words : List String) : List (List String) :=
  (chunkStarts words.length (size - overlap)).filterMap (fun i =>
    let chunk_words := (words.drop i).take size
    if chunk_words.isEmpty then none else some chunk_words)

/-- `chunk_text`'s word-level chunking at the configured sizes. -/
def wordChunks (words : List String) : List (List String) :=
  wordChunksWith wordChunkSize wordOverlap words

/-- One element of the list returned by `chunk_text`. -/
structure Chunk where
  text : String
  page : Nat
  chunk_index : Nat
deriving DecidableEq

/-- `DocumentProcessor.chunk_text`: the produced chunk dicts, with
`text = ' '.join(chunk_words)` and `chunk_index = len(chunks)` at append
time (i.e. the position). -/
def chunk_text (text : String) (page : Nat) : List Chunk :=
  (wordChunks (pySplit text)).enum.map (fun p =>
    { text := String.intercalate " " p.2, page := page, chunk_index := p.1 })

/-! ### Chunker lemmas -/

theorem mem_chunkStarts_lt {n i : Nat} (h : i ∈ chunkStarts n 338) : i < n := by
  simp only [chunkStarts, List.mem_map, List.mem_range] at h
  obtain ⟨k, hk, rfl⟩ := h
  have h2 : k + 1 ≤ (n + 337) / 338 := hk
  have h3 : (k + 1) * 338 ≤ n + 337 := by
    have := Nat.mul_le_mul_right 338 h2
    calc (k + 1) * 338 ≤ (n + 337) / 338 * 338 := this
      _ ≤ n + 337 := Nat.div_mul_le_self _ _
  omega

theorem wordChunks_eq_map (words : List String) :
    wordChunks words =
      (chunkStarts words.length 338).map (fun i => (words.drop i).take 375) := by
  have hstep : wordChunkSize - wordOverlap = 338 := by decide
  have hsize : wordChunkSize = 375 := by decide
  unfold wordChunks wordChunksWith
  rw [hstep, hsize]
  have key : ∀ l : List Nat, (∀ i ∈ l, i < words.length) →
      l.filterMap (fun i =>
        let chunk_words := (words.drop i).take 375
        if chunk_words.isEmpty then none else some chunk_words) =
      l.map (fun i => (words.drop i).take 375) := by
    intro l hl
    induction l with
    | nil => rfl
    | cons a l ih =>
      have ha : a < words.length := hl a (by simp)
      have hne : ¬((words.drop a).take 375).isEmpty = true := by
        rw [List.isEmpty_iff]
        intro hemp
        have : ((words.drop a).take 375).length = 0 := by rw [hemp]; rfl
        rw [List.length_take, List.length_drop] at this
        omega
      simp only [List.filterMap_cons, List.map_cons]
      rw [if_neg hne, ih (fun i hi => hl i (by simp [hi]))]
  exact key _ (fun i hi => mem_chunkStarts_lt hi)

theorem length_wordChunks (words : List String) :
    (wordChunks words).length = (words.length + 337) / 338 := by
  rw [wordChunks_eq_map]
  simp [chunkStarts]

theorem wordChunks_get (words : List String) (i : Nat)
    (h : i < (wordChunks words).length) :
    (wordChunks words).get ⟨i, h⟩ = (words.drop (i * 338)).take 375 := by
  simp only [List.get_eq_getElem, wordChunks_eq_map, chunkStarts, List.getElem_map,
    List.getElem_range]

set_option maxRecDepth 8000 in
/-- C1 fails on the code at a page of 339 words (which is `≤ 375`, the
configured word chunk size `C`): the chunker produces 2 chunks, not 1;
and, both chunks existing, the last `O` words of chunk 0 are not the
first words of chunk 1 (which has fewer than `O` words). -/
theorem chunk_text_claim_false_at_339 :
    (0 < 339 ∧ 339 ≤ wordChunkSize ∧
      (wordChunks (List.replicate 339 "w")).length = 2) ∧
    ((wordChunks (List.replicate 338 "a" ++ ["b"])).length = 2 ∧
      ((wordChunks (List.replicate 338 "a" ++ ["b"])).getD 0 []).drop
          (((wordChunks (List.replicate 338 "a" ++ ["b"])).getD 0 []).length - wordOverlap)
        ≠ ((wordChunks (List.replicate 338 "a" ++ ["b"])).getD 1 []).take wordOverlap) := by
  refine ⟨⟨by decide, by decide, ?_⟩, ?_, ?_⟩
  · rw [length_wordChunks, List.length_replicate]
  · rw [length_wordChunks]
    norm_num
  · decide

/-- C1 (amended): `chunk_text` produces one chunk per word-level slice;
for every word list, the chunker produces `⌈N / (C − O)⌉` chunks (hence 0
when N = 0); every chunk has at most `C` words; dropping the first
`C − O` words of chunk `i` yields exactly the first `O` words of chunk
`i + 1` (so the last `O` words of chunk `i` equal the first `O` words of
chunk `i + 1` whenever chunk `i` is full). -/
theorem chunk_text_amended (words : List String) :
    (∀ text page, (chunk_text text page).length = (wordChunks (pySplit text)).length) ∧
    (wordChunks words).length
        = (words.length + (wordChunkSize - wordOverlap) - 1) / (wordChunkSize - wordOverlap) ∧
    (∀ c ∈ wordChunks words, c.length ≤ wordChunkSize) ∧
    (∀ i (h : i + 1 < (wordChunks words).length),
      ((wordChunks words).get ⟨i, Nat.lt_of_succ_lt h⟩).drop (wordChunkSize - wordOverlap)
        = ((wordChunks words).get ⟨i + 1, h⟩).take wordOverlap) ∧
    (∀ i (h : i + 1 < (wordChunks words).length),
      ((wordChunks words).get ⟨i, Nat.lt_of_succ_lt h⟩).length = wordChunkSize →
      ((wordChunks words).get ⟨i, Nat.lt_of_succ_lt h⟩).drop
          (((wordChunks words).get ⟨i, Nat.lt_of_succ_lt h⟩).length - wordOverlap)
        = ((wordChunks words).get ⟨i + 1, h⟩).take wordOverlap) := by
  have hstep : wordChunkSize - wordOverlap = 338 := by decide
  have hsize : wordChunkSize = 375 := by decide
  have hov : wordOverlap = 37 := by decide
  have hdrop : ∀ i (h : i + 1 < (wordChunks words).length),
      ((wordChunks words).get ⟨i, Nat.lt_of_succ_lt h⟩).drop 338
        = ((wordChunks words).get ⟨i + 1, h⟩).take 37 := by
    intro i h
    rw [wordChunks_get words i (Nat.lt_of_succ_lt h), wordChunks_get words (i + 1) h]
    rw [List.drop_take, List.drop_drop, List.take_take]
    have harith : i * 338 + 338 = (i + 1) * 338 := by ring
    have hmin : min (375 - 338) 375 = 37 := by decide
    rw [harith, hmin]
  refine ⟨?_, ?_, ?_, ?_, ?_⟩
  · intro text page
    unfold chunk_text
    rw [List.length_map, List.enum_length]
  · rw [hstep, length_wordChunks]
    omega
  · intro c hc
    rw [wordChunks_eq_map] at hc
    obtain ⟨i, _, rfl⟩ := List.mem_map.mp hc
    rw [hsize]
    exact List.length_take_le _ _
  · intro i h
    rw [hstep, hov]
    exact hdrop i h
  · intro i h hfull
    rw [hfull, hsize, hov]
    have h338 : (375 : Nat) - 37 = 338 := by norm_num
    rw [h338]
    exact hdrop i h

/-- C1 amended-claim witness: a 700-word page has 3 chunks; the overlap
equation holds between chunks 0 and 1. -/
theorem chunk_text_amended_witness :
    ∃ h : 0 + 1 < (wordChunks (List.replicate 700 "w")).length,
      ((wordChunks (List.replicate 700 "w")).get ⟨0, Nat.lt_of_succ_lt h⟩).drop
          (wordChunkSize - wordOverlap)
        = ((wordChunks (List.replicate 700 "w")).get ⟨1, h⟩).take wordOverlap := by
  have h : 0 + 1 < (wordChunks (List.replicate 700 "w")).length := by
    rw [length_wordChunks, List.length_replicate]
    decide
  exact ⟨h, (chunk_text_amended (List.replicate 700 "w")).2.2.2.1 0 h⟩

/-! ## tools.py — `DefTechTools.log_access`

The global `audit_log_store` list becomes an explicit `store` argument
threaded through the call; `datetime.now().isoformat()` becomes the `now`
argument; the per-day append-only file write becomes the `fileLine` field
of the outcome (`none` when nothing is written).  The audit identifier is
`f"AUD-\x7blen(audit_log_store) + 1:06d\x7d"`. -/

/-- Python `str.lower()`, character by character.  The classification
strings involved are ASCII, where this agrees with Python. -/
def pyLower (s : String) : String := ⟨s.toList.map Char.toLower⟩

/-- Python `str.upper()`, character by character (ASCII agreement as for
`pyLower`). -/
def pyUpper (s : String) : String := ⟨s.toList.map Char.toUpper⟩

/-- The decimal digit characters of `n`, most significant first. -/
def natDigits (n : Nat) : List Char :=
  if _h : n < 10 then [Nat.digitChar n]
  else natDigits (n / 10) ++ [Nat.digitChar (n % 10)]
decreasing_by exact Nat.div_lt_self (by omega) (by omega)

/-- Python `%06d` formatting: left-pad the decimal digits with zeros to
width 6. -/
def pad6 (n : Nat) : String :=
  ⟨List.replicate (6 - (natDigits n).length) '0' ++ natDigits n⟩

/-- The audit identifier allocated when the store already holds `k - 1`
entries is `auditId k`. -/
def auditId (n : Nat) : String := "AUD-" ++ pad6 n

/-- Numeric value of a digit character. -/
def digitVal (c : Char) : Nat := c.toNat - 48

/-- Read a digit string back as a number (inverse of formatting). -/
def decodeDigits (cs : List Char) : Nat :=
  cs.foldl (fun a c => 10 * a + digitVal c) 0

/-- The sequence number carried by an audit identifier `AUD-......`. -/
def idNum (s : String) : Nat := decodeDigits (s.toList.drop 4)

structure AuditEntry where
  audit_id : String
  timestamp : String
  document_id : String
  user_id : String
  classification_level : String
  action : String
deriving DecidableEq

/-- The dict returned by `log_access`: either the success record
`\x7bsuccess: True, audit_id, timestamp, message\x7d` or the failure record
`\x7bsuccess: False, error\x7d`. -/
inductive LogAccessResult where
  | ok (audit_id timestamp message : String)
  | err (error : String)
deriving DecidableEq

/-- Return value of `log_access` together with its two side effects: the
new in-memory store and the line appended to the per-day log file (the
entry it serialises), if any. -/
structure LogAccessOutcome where
  result : LogAccessResult
  store : List AuditEntry
  fileLine : Option AuditEntry
deriving DecidableEq

/-- `DefTechTools.log_access`. -/
def log_access (store : List AuditEntry) (now : String)
    (document_id user_id classification_level : String) : LogAccessOutcome :=
  if pyLower classification_level ∈ CLASSIFICATION_LEVELS then
    let entry : AuditEntry :=
      { audit_id := auditId (store.length + 1)
        timestamp := now
        document_id := document_id
        user_id := user_id
        classification_level := pyUpper classification_level
        action := "DOCUMENT_ACCESS" }
    { result := .ok entry.audit_id now
        ("Access to " ++ pyUpper classification_level ++ " document logged successfully")
      store := store ++ [entry]
      fileLine := some entry }
  else
    { result := .err ("Invalid classification level. Must be one of: "
        ++ String.intercalate ", " CLASSIFICATION_LEVELS)
      store := store
      fileLine := none }

/-! ### Audit identifier lemmas -/

theorem digitVal_digitChar : ∀ d, d < 10 → digitVal (Nat.digitChar d) = d := by decide

theorem decodeDigits_append_singleton (cs : List Char) (c : Char) :
    decodeDigits (cs ++ [c]) = 10 * decodeDigits cs + digitVal c := by
  unfold decodeDigits
  rw [List.foldl_append]
  rfl

theorem decodeDigits_natDigits (n : Nat) : decodeDigits (natDigits n) = n := by
  induction n using Nat.strong_induction_on with
  | _ n ih =>
    by_cases h : n < 10
    · rw [natDigits, dif_pos h]
      show 10 * 0 + digitVal (Nat.digitChar n) = n
      rw [digitVal_digitChar n h]
      omega
    · rw [natDigits, dif_neg h]
      rw [decodeDigits_append_singleton]
      rw [ih (n / 10) (Nat.div_lt_self (by omega) (by omega))]
      rw [digitVal_digitChar (n % 10) (Nat.mod_lt _ (by omega))]
      omega

theorem decodeDigits_replicate_zero_append (k : Nat) (cs : List Char) :
    decodeDigits (List.replicate k '0' ++ cs) = decodeDigits cs := by
  induction k with
  | zero => rfl
  | succ k ih =>
    have : List.replicate (k + 1) '0' ++ cs = '0' :: (List.replicate k '0' ++ cs) := by
      simp [List.replicate_succ]
    rw [this]
    show decodeDigits (List.replicate k '0' ++ cs) = decodeDigits cs
    exact ih

theorem idNum_auditId (n : Nat) : idNum (auditId n) = n := by
  unfold idNum auditId
  have hlist : ("AUD-" ++ pad6 n).toList = "AUD-".toList ++ (pad6 n).toList := by
    show ("AUD-" ++ pad6 n).data = "AUD-".data ++ (pad6 n).data
    exact String.data_append _ _
  rw [hlist]
  have h4 : "AUD-".toList.length = 4 := by decide
  rw [← h4, List.drop_left]
  show decodeDigits (List.replicate (6 - (natDigits n).length) '0' ++ natDigits n) = n
  rw [decodeDigits_replicate_zero_append, decodeDigits_natDigits]

/-- Every entry of a store built purely by `log_access` carries the
identifier determined by its position. -/
def auditWellFormed (store : List AuditEntry) : Prop :=
  ∀ i (h : i < store.length), (store.get ⟨i, h⟩).audit_id = auditId (i + 1)

theorem auditWellFormed_pairwise {store : List AuditEntry}
    (hwf : auditWellFormed store) :
    (store.map (fun a => idNum a.audit_id)).Pairwise (· < ·) := by
  rw [List.pairwise_iff_get]
  intro i j hij
  have hi : (i : Nat) < store.length := by
    have := i.isLt; simpa using this
  have hj : (j : Nat) < store.length := by
    have := j.isLt; simpa using this
  simp only [List.get_eq_getElem, List.getElem_map]
  have h1 := hwf i (by simpa using hi)
  have h2 := hwf j (by simpa using hj)
  simp only [List.get_eq_getElem] at h1 h2 ⊢
  rw [h1, h2, idNum_auditId, idNum_auditId]
  have : (i : Nat) < (j : Nat) := hij
  omega

theorem auditWellFormed_append_two {store : List AuditEntry} {e e' : AuditEntry}
    (hwf : auditWellFormed store)
    (he : e.audit_id = auditId (store.length + 1))
    (he' : e'.audit_id = auditId (store.length + 2)) :
    auditWellFormed (store ++ [e, e']) := by
  intro i h
  simp only [List.get_eq_getElem]
  have hlen : (store ++ [e, e']).length = store.length + 2 := by simp
  rcases Nat.lt_trichotomy i store.length with hi | hi | hi
  · rw [List.getElem_append_left hi]
    have := hwf i hi
    simpa using this
  · subst hi
    rw [List.getElem_append_right (le_refl _)]
    simpa using he
  · have hi2 : i = store.length + 1 := by rw [hlen] at h; omega
    subst hi2
    rw [List.getElem_append_right (by omega)]
    have : store.length + 1 - store.length = 1 := by omega
    simp only [this]
    simpa using he'

/-- C4: with a valid classification level (any letter case) `log_access`
succeeds and appends exactly one entry; a second successful call appends a
second entry whose sequential identifier is strictly greater; and on a
well-formed store the identifiers remain unique and strictly increasing. -/
theorem log_access_valid_appends (store : List AuditEntry)
    (now now' d d' u u' lvl lvl' : String)
    (h : pyLower lvl ∈ CLASSIFICATION_LEVELS)
    (h' : pyLower lvl' ∈ CLASSIFICATION_LEVELS) :
    ∃ e e' : AuditEntry,
      (log_access store now d u lvl).store = store ++ [e] ∧
      (log_access store now d u lvl).result
        = .ok e.audit_id now
            ("Access to " ++ pyUpper lvl ++ " document logged successfully") ∧
      (log_access ((log_access store now d u lvl).store) now' d' u' lvl').store
        = store ++ [e, e'] ∧
      (log_access ((log_access store now d u lvl).store) now' d' u' lvl').result
        = .ok e'.audit_id now'
            ("Access to " ++ pyUpper lvl' ++ " document logged successfully") ∧
      e.audit_id = auditId (store.length + 1) ∧
      e'.audit_id = auditId (store.length + 2) ∧
      idNum e.audit_id < idNum e'.audit_id ∧
      (auditWellFormed store →
        auditWellFormed (store ++ [e, e']) ∧
        ((store ++ [e, e']).map (fun a => idNum a.audit_id)).Pairwise (· < ·)) := by
  refine ⟨{ audit_id := auditId (store.length + 1), timestamp := now,
            document_id := d, user_id := u,
            classification_level := pyUpper lvl, action := "DOCUMENT_ACCESS" },
          { audit_id := auditId (store.length + 2), timestamp := now',
            document_id := d', user_id := u',
            classification_level := pyUpper lvl', action := "DOCUMENT_ACCESS" },
          ?_, ?_, ?_, ?_, rfl, rfl, ?_, ?_⟩
  · simp [log_access, h]
  · simp [log_access, h]
  · simp [log_access, h, h']
  · simp only [log_access, if_pos h]
    simp only [if_pos h']
    simp
  · rw [idNum_auditId, idNum_auditId]
    omega
  · intro hwf
    refine ⟨auditWellFormed_append_two hwf rfl rfl, ?_⟩
    exact auditWellFormed_pairwise (auditWellFormed_append_two hwf rfl rfl)

/-- C4 witness: two concrete calls with classification `"SECRET"` on the
empty store. -/
theorem log_access_valid_appends_witness :
    pyLower "SECRET" ∈ CLASSIFICATION_LEVELS ∧
    ∃ e e' : AuditEntry,
      (log_access [] "t1" "doc1" "u1" "SECRET").store = [e] ∧
      (log_access (log_access [] "t1" "doc1" "u1" "SECRET").store
          "t2" "doc1" "u1" "SECRET").store = [e, e'] ∧
      idNum e.audit_id < idNum e'.audit_id := by
  have hmem : pyLower "SECRET" ∈ CLASSIFICATION_LEVELS := by decide
  refine ⟨hmem, ?_⟩
  obtain ⟨e, e', h1, _, h3, _, _, _, h7, _⟩ :=
    log_access_valid_appends [] "t1" "t2" "doc1" "doc1" "u1" "u1" "SECRET" "SECRET" hmem hmem
  exact ⟨e, e', by simpa using h1, by simpa using h3, h7⟩

/-- C5: an invalid classification level yields a structured failure
carrying the allowed values, leaves the store unchanged and writes no
file line. -/
theorem log_access_invalid_rejected (store : List AuditEntry)
    (now d u lvl : String) (h : pyLower lvl ∉ CLASSIFICATION_LEVELS) :
    log_access store now d u lvl =
      { result := .err ("Invalid classification level. Must be one of: "
          ++ "unclassified, confidential, secret, top_secret")
        store := store
        fileLine := none } := by
  simp only [log_access, if_neg h]
  rfl

/-- C5 witness: the concrete invalid level `"invalid_level"`. -/
theorem log_access_invalid_rejected_witness :
    pyLower "invalid_level" ∉ CLASSIFICATION_LEVELS ∧
    log_access [] "t1" "doc1" "u1" "invalid_level" =
      { result := .err ("Invalid classification level. Must be one of: "
          ++ "unclassified, confidential, secret, top_secret")
        store := []
        fileLine := none } :=
  ⟨by decide, log_access_invalid_rejected [] "t1" "doc1" "u1" "invalid_level" (by decide)⟩

/-- C10: a successful `log_access` stores the classification upper-cased
(and uses the upper-cased form in its confirmation message) while
validating the lower-cased form; two successive calls with different
casings of the same level produce entries that differ only in identifier
and timestamp. -/
theorem log_access_uppercases_classification (store : List AuditEntry)
    (now now' d u lvl lvl' : String)
    (h : pyLower lvl ∈ CLASSIFICATION_LEVELS)
    (h' : pyLower lvl' ∈ CLASSIFICATION_LEVELS)
    (hsame : pyUpper lvl = pyUpper lvl') :
    ∃ e e' : AuditEntry,
      (log_access store now d u lvl).store = store ++ [e] ∧
      (log_access ((log_access store now d u lvl).store) now' d u lvl').store
        = store ++ [e, e'] ∧
      e.classification_level = pyUpper lvl ∧
      e'.classification_level = pyUpper lvl' ∧
      (log_access store now d u lvl).result
        = .ok (auditId (store.length + 1)) now
            ("Access to " ++ pyUpper lvl ++ " document logged successfully") ∧
      e' = { e with audit_id := auditId (store.length + 2), timestamp := now' } := by
  refine ⟨{ audit_id := auditId (store.length + 1), timestamp := now,
            document_id := d, user_id := u,
            classification_level := pyUpper lvl, action := "DOCUMENT_ACCESS" },
          { audit_id := auditId (store.length + 2), timestamp := now',
            document_id := d, user_id := u,
            classification_level := pyUpper lvl', action := "DOCUMENT_ACCESS" },
          ?_, ?_, rfl, rfl, ?_, ?_⟩
  · simp [log_access, h]
  · simp [log_access, h, h']
  · simp [log_access, h]
  · simp [hsame]

/-- C10 witness: `"Secret"` then `"SECRET"` store the same upper-cased
classification. -/
theorem log_access_uppercases_classification_witness :
    pyLower "Secret" ∈ CLASSIFICATION_LEVELS ∧
    pyUpper "Secret" = pyUpper "SECRET" ∧
    ∃ e e' : AuditEntry,
      (log_access [] "t1" "doc1" "u1" "Secret").store = [e] ∧
      (log_access (log_access [] "t1" "doc1" "u1" "Secret").store
          "t2" "doc1" "u1" "SECRET").store = [e, e'] ∧
      e.classification_level = "SECRET" ∧
      e' = { e with audit_id := auditId 2, timestamp := "t2" } := by
  have h1 : pyLower "Secret" ∈ CLASSIFICATION_LEVELS := by decide
  have h2 : pyLower "SECRET" ∈ CLASSIFICATION_LEVELS := by decide
  have h3 : pyUpper "Secret" = pyUpper "SECRET" := by decide
  refine ⟨h1, h3, ?_⟩
  obtain ⟨e, e', g1, g2, g3, _, _, g6⟩ :=
    log_access_uppercases_classification [] "t1" "t2" "doc1" "u1" "Secret" "SECRET" h1 h2 h3
  refine ⟨e, e', by simpa using g1, by simpa using g2, ?_, by simpa using g6⟩
  rw [g3]
  decide

/-! ## JSON values

A small model of the Python/JSON values that flow through tool arguments,
tool results and record payloads. -/

inductive JVal where
  | null
  | bool (b : Bool)
  | num (n : Int)
  | str (s : String)
  | arr (xs : List JVal)
  | obj (fields : List (String × JVal))

/-- Python truthiness of a JSON value. -/
def truthy : JVal → Bool
  | .null => false
  | .bool b => b
  | .num n => n != 0
  | .str s => s ≠ ""
  | .arr xs => !xs.isEmpty
  | .obj fs => !fs.isEmpty

/-- `dict.get(k, d)`: association-list lookup with a default.  Tool results
in this program are always lists or dicts, so `.get` is only ever reached
on a dict. -/
def dictGetD (v : JVal) (k : String) (d : JVal) : JVal :=
  match v with
  | .obj fs => ((fs.find? (fun kv => kv.1 == k)).map Prod.snd).getD d
  | _ => d

/-- Python `str(...)` on the primitive values that reach it here (the
`success` flag of a tool-result dict, or the `'completed'` default). -/
def pyStr : JVal → String
  | .null => "None"
  | .bool true => "True"
  | .bool false => "False"
  | .num n => toString n
  | .str s => s
  | .arr _ => "[...]"
  | .obj _ => "\x7b...\x7d"

/-! ## vector_store.py — `VectorStore`

The Qdrant client is external to the repository; it is abstracted at its
interface boundary as a search function from (query vector, limit,
optional filter conditions) to scored hits, and — for ingestion — as a
collection with a fixed configured dimensionality.  Vector coordinates
and similarity scores are floats in the source, modelled by `Rat`. -/

/-- One formatted result of `VectorStore.search`: the payload fields the
formatting loop extracts, together with the similarity score.  (The
`metadata` key, which merely echoes the whole payload, is not modelled;
no caller in the core reads it.) -/
structure SearchHit where
  text : String
  manual_name : String
  page : Nat
  «section» : String
  classification : String
  document_type : String
  score : Rat
deriving DecidableEq

/-- The Qdrant client's `search` endpoint, abstracted at its interface:
query vector, limit, and the optional conjunctive field-equality filter
`Filter(must=[FieldCondition(key, MatchValue(value)), ...])` (here the
list of key/value pairs, in insertion order). -/
structure QdrantSearchFn where
  search : List Rat → Nat → Option (List (String × String)) → List SearchHit

/-- `VectorStore.search`: defaults the limit to `config.TOP_K_RESULTS`,
builds `query_filter` only when a non-empty filter dict was supplied, and
formats each returned hit. -/
def VectorStore.search (client : QdrantSearchFn) (query_embedding : List Rat)
    (limit : Option Nat) (filters : Option (List (String × String))) :
    List SearchHit :=
  let lim := limit.getD TOP_K_RESULTS
  let query_filter : Option (List (String × String)) :=
    match filters with
    | none => none
    | some fs => if fs.isEmpty then none else some fs
  (client.search query_embedding lim query_filter).map (fun hit =>
    { text := hit.text, manual_name := hit.manual_name, page := hit.page,
      «section» := hit.«section», classification := hit.classification,
      document_type := hit.document_type, score := hit.score })

/-- `VectorStore.search_by_manual_type`: always filters on
`document_type = "manual"`, and additionally on `manual_type` only when
the argument is truthy (non-`None`, non-empty) and belongs to
`config.MANUAL_TYPES`. -/
def VectorStore.search_by_manual_type (client : QdrantSearchFn)
    (query_embedding : List Rat) (manual_type : Option String)
    (limit : Option Nat) : List SearchHit :=
  let filters := [("document_type", "manual")] ++
    (match manual_type with
     | some mt => if mt ≠ "" ∧ mt ∈ MANUAL_TYPES then [("manual_type", mt)] else []
     | none => [])
  VectorStore.search client query_embedding limit (some filters)

/-- `VectorStore.search_by_doctrine_area` (same shape for doctrine). -/
def VectorStore.search_by_doctrine_area (client : QdrantSearchFn)
    (query_embedding : List Rat) (doctrine_area : Option String)
    (limit : Option Nat) : List SearchHit :=
  let filters := [("document_type", "doctrine")] ++
    (match doctrine_area with
     | some da => if da ≠ "" ∧ da ∈ DOCTRINE_AREAS then [("doctrine_area", da)] else []
     | none => [])
  VectorStore.search client query_embedding limit (some filters)

/-! ## tools.py — `DefTechTools.search_manuals` -/

/-- `round(x, 3)` (rounding mode is irrelevant to every claim below). -/
def round3 (x : Rat) : Rat := round (x * 1000) / 1000

/-- `result['text'][:500] + ('...' if len(result['text']) > 500 else '')`. -/
def truncate500 (s : String) : String :=
  s.take 500 ++ (if s.length > 500 then "..." else "")

/-- One element of the result list `search_manuals` returns to the agent. -/
structure FormattedResult where
  rank : Nat
  manual_name : String
  page : Nat
  «section» : String
  classification : String
  text : String
  relevance_score : Rat
deriving DecidableEq

/-- The two external capabilities `search_manuals` composes: the Cohere
embedding gateway in query mode (`DocumentProcessor.embed_query`, which
returns `[]` on an API error) and the Qdrant search endpoint. -/
structure SearchToolsEnv where
  embed_query : String → List Rat
  client : QdrantSearchFn

/-- `DefTechTools.search_manuals`. -/
def DefTechTools.search_manuals (env : SearchToolsEnv) (query : String)
    (manual_type : Option String) : List FormattedResult :=
  let query_embedding := env.embed_query query
  if query_embedding.isEmpty then []
  else
    let results := VectorStore.search_by_manual_type env.client query_embedding
      manual_type (some TOP_K_RESULTS)
    results.enum.map (fun p =>
      { rank := p.1 + 1, manual_name := p.2.manual_name, page := p.2.page,
        «section» := p.2.«section», classification := p.2.classification,
        text := truncate500 p.2.text, relevance_score := round3 p.2.score })

/-- C6: an unrecognized `manual_type` behaves exactly like no
`manual_type` at all — the backend is queried with only the
`document_type = "manual"` condition in both cases. -/
theorem search_manuals_unrecognized_type (env : SearchToolsEnv)
    (query : String) (mt : String) (h : mt ∉ MANUAL_TYPES) :
    DefTechTools.search_manuals env query (some mt)
      = DefTechTools.search_manuals env query none ∧
    VectorStore.search_by_manual_type env.client (env.embed_query query)
        (some mt) (some TOP_K_RESULTS)
      = env.client.search (env.embed_query query) TOP_K_RESULTS
          (some [("document_type", "manual")]) := by
  have hcond : ¬(mt ≠ "" ∧ mt ∈ MANUAL_TYPES) := fun hc => h hc.2
  have hsame : ∀ qe lim, VectorStore.search_by_manual_type env.client qe (some mt) lim
      = VectorStore.search_by_manual_type env.client qe none lim := by
    intro qe lim
    unfold VectorStore.search_by_manual_type
    simp [hcond]
  have hbase : ∀ qe, VectorStore.search_by_manual_type env.client qe none (some TOP_K_RESULTS)
      = env.client.search qe TOP_K_RESULTS (some [("document_type", "manual")]) := by
    intro qe
    unfold VectorStore.search_by_manual_type VectorStore.search
    simp only [List.append_nil, Option.getD_some, List.isEmpty_cons, Bool.false_eq_true,
      if_false]
    exact List.map_id _
  constructor
  · unfold DefTechTools.search_manuals
    simp only [hsame]
  · rw [hsame, hbase]

/-- A concrete search environment for witnesses: a one-point backend that
returns a fixed hit regardless of filter. -/
def witnessSearchEnv : SearchToolsEnv :=
  { embed_query := fun _ => [1, 0]
    client := ⟨fun _ _ _ =>
      [{ text := "Daily equipment inspection requires visual check of all components."
         manual_name := "maintenance_manual", page := 1, «section» := "General"
         classification := "unclassified", document_type := "manual", score := 1 }]⟩ }

/-- C6 witness: the unrecognized type `"bogus"` at the concrete
environment. -/
theorem search_manuals_unrecognized_type_witness :
    "bogus" ∉ MANUAL_TYPES ∧
    DefTechTools.search_manuals witnessSearchEnv "inspection" (some "bogus")
      = DefTechTools.search_manuals witnessSearchEnv "inspection" none :=
  ⟨by decide, (search_manuals_unrecognized_type witnessSearchEnv "inspection" "bogus"
      (by decide)).1⟩

/-! ## vector_store.py — `VectorStore.ingest_chunks`

`ingest_chunks` raises `ValueError` when the two input lists differ in
length, then builds one `PointStruct(id=str(uuid.uuid4()), vector=…,
payload=…)` per pair and batch-upserts them.  `str(uuid.uuid4())` is a
fresh random identifier per point; it is modelled by an identifier supply
indexed by the point's position, with freshness (injectivity of the
supply) as an explicit hypothesis where uniqueness is claimed. -/

/-- Metadata dict of one chunk as produced by
`DocumentProcessor.process_document`: the fixed keys are always present,
`last_updated` may be absent (defaulted to `'2024'`), plus arbitrary
extra metadata. -/
structure ChunkMeta where
  text : String
  manual_name : String
  page : Nat
  «section» : String
  classification : String
  document_type : String
  last_updated : Option String
  extra : List (String × JVal)

/-- The payload dict built for one point. -/
def chunkPayload (c : ChunkMeta) : List (String × JVal) :=
  [("text", .str c.text), ("manual_name", .str c.manual_name),
   ("page", .num c.page), ("section", .str c.«section»),
   ("classification", .str c.classification),
   ("document_type", .str c.document_type),
   ("last_updated", .str (c.last_updated.getD "2024"))]
  ++ c.extra.filter (fun kv => kv.1 ∉
      ["text", "manual_name", "page", "section", "classification",
       "document_type", "last_updated"])

structure QPoint where
  id : String
  vector : List Rat
  payload : List (String × JVal)

/-- The collection as the Qdrant backend holds it: its configured vector
dimensionality and its records. -/
structure QCollection where
  dim : Nat
  points : List QPoint

inductive IngestError where
  | lengthMismatch (msg : String)
  | dimensionMismatch
deriving DecidableEq

/-- Modelled from the spec: the Qdrant client's `upsert` (external to the
repository; only its caller `VectorStore.ingest_chunks` is under `src/`)
rejects a batch containing a vector whose width disagrees with the
collection's configured dimensionality, and otherwise appends every
point. -/
def qdrant_upsert (c : QCollection) (ps : List QPoint) :
    Except IngestError QCollection :=
  if ps.all (fun p => p.vector.length == c.dim) then
    .ok { c with points := c.points ++ ps }
  else .error .dimensionMismatch

/-- `VectorStore.ingest_chunks`.  `ids` is the `uuid.uuid4()` supply. -/
def VectorStore.ingest_chunks (ids : Nat → String) (c : QCollection)
    (chunks : List ChunkMeta) (embeddings : List (List Rat)) :
    Except IngestError QCollection :=
  if chunks.length ≠ embeddings.length then
    .error (.lengthMismatch "Number of chunks must match number of embeddings")
  else
    let points := (chunks.zip embeddings).enum.map (fun p =>
      { id := ids p.1, vector := p.2.2, payload := chunkPayload p.2.1 })
    qdrant_upsert c points

theorem ingest_points_map_vector (chunks : List ChunkMeta)
    (embeddings : List (List Rat)) (ids : Nat → String)
    (hlen : chunks.length = embeddings.length) :
    (((chunks.zip embeddings).enum.map (fun p =>
        ({ id := ids p.1, vector := p.2.2, payload := chunkPayload p.2.1 } : QPoint))).map
      (fun p => p.vector)) = embeddings := by
  rw [List.map_map]
  have h1 : ((fun p : QPoint => p.vector) ∘ (fun p : Nat × (ChunkMeta × List Rat) =>
      ({ id := ids p.1, vector := p.2.2, payload := chunkPayload p.2.1 } : QPoint)))
      = (fun p : Nat × (ChunkMeta × List Rat) => p.2.2) := rfl
  rw [h1]
  have h2 : (fun p : Nat × (ChunkMeta × List Rat) => p.2.2)
      = (fun q : ChunkMeta × List Rat => q.2) ∘ Prod.snd := rfl
  rw [h2, ← List.map_map, List.enum_map_snd]
  exact List.map_snd_zip _ _ (le_of_eq hlen.symm)

/-- C8: `ingest_chunks` fails with the length-mismatch `ValueError`
(inserting nothing) when the two lists differ in length; with equal
lengths and matching vector widths it inserts exactly one record per
pair, with pairwise-distinct fresh identifiers when the identifier supply
is injective; and with equal lengths but some vector of the wrong width
it fails with the dimension mismatch. -/
theorem ingest_chunks_spec (ids : Nat → String) (c : QCollection)
    (chunks : List ChunkMeta) (embeddings : List (List Rat)) :
    (chunks.length ≠ embeddings.length →
      VectorStore.ingest_chunks ids c chunks embeddings
        = .error (.lengthMismatch "Number of chunks must match number of embeddings")) ∧
    (chunks.length = embeddings.length →
      (∀ e ∈ embeddings, e.length = c.dim) →
      ∃ ps : List QPoint,
        VectorStore.ingest_chunks ids c chunks embeddings
          = .ok { dim := c.dim, points := c.points ++ ps } ∧
        ps.length = chunks.length ∧
        (Function.Injective ids → (ps.map (fun p => p.id)).Nodup)) ∧
    (chunks.length = embeddings.length →
      (∃ e ∈ embeddings, e.length ≠ c.dim) →
      VectorStore.ingest_chunks ids c chunks embeddings
        = .error .dimensionMismatch) := by
  refine ⟨?_, ?_, ?_⟩
  · intro hne
    unfold VectorStore.ingest_chunks
    rw [if_pos hne]
  · intro hlen hdim
    refine ⟨(chunks.zip embeddings).enum.map (fun p =>
      { id := ids p.1, vector := p.2.2, payload := chunkPayload p.2.1 }), ?_, ?_, ?_⟩
    · unfold VectorStore.ingest_chunks
      rw [if_neg (by omega)]
      unfold qdrant_upsert
      rw [if_pos ?hall]
      case hall =>
        rw [List.all_eq_true]
        intro p hp
        have hv : p.vector ∈ embeddings := by
          rw [← ingest_points_map_vector chunks embeddings ids hlen]
          exact List.mem_map_of_mem _ hp
        simpa using hdim _ hv
    · simp [hlen]
    · intro hinj
      have : ((chunks.zip embeddings).enum.map (fun p =>
          ({ id := ids p.1, vector := p.2.2, payload := chunkPayload p.2.1 } : QPoint))).map
            (fun p => p.id)
          = (List.range (chunks.zip embeddings).length).map ids := by
        rw [List.map_map, ← List.enum_map_fst (chunks.zip embeddings), List.map_map]
        rfl
      rw [this]
      exact (List.nodup_range _).map hinj
  · intro hlen ⟨e, he, hne⟩
    unfold VectorStore.ingest_chunks
    rw [if_neg (by omega)]
    unfold qdrant_upsert
    rw [if_neg ?hnall]
    case hnall =>
      rw [List.all_eq_true]
      intro hall
      apply hne
      have : e ∈ ((chunks.zip embeddings).enum.map (fun p =>
          ({ id := ids p.1, vector := p.2.2, payload := chunkPayload p.2.1 } : QPoint))).map
            (fun p => p.vector) := by
        rw [ingest_points_map_vector chunks embeddings ids hlen]
        exact he
      obtain ⟨p, hp, hpe⟩ := List.mem_map.mp this
      have := hall p hp
      rw [hpe] at this
      simpa using this

/-- C8 witness: one chunk with a matching 2-wide vector on a 2-dimensional
collection inserts exactly one record. -/
theorem ingest_chunks_spec_witness :
    ∃ ps : List QPoint,
      VectorStore.ingest_chunks (fun n => toString n) ⟨2, []⟩
          [⟨"t", "m", 1, "General", "unclassified", "manual", none, []⟩] [[1, 0]]
        = .ok { dim := 2, points := [] ++ ps } ∧
      ps.length = 1 ∧
      (Function.Injective (fun n : Nat => toString n) → (ps.map (fun p => p.id)).Nodup) := by
  have h := (ingest_chunks_spec (fun n => toString n) ⟨2, []⟩
    [⟨"t", "m", 1, "General", "unclassified", "manual", none, []⟩] [[1, 0]]).2.1
    rfl (by intro e he; simp at he; rw [he]; rfl)
  simpa using h

/-! ## agent.py — `DefTechAgent.run`

The bounded tool-calling loop.  External capabilities are gathered into an
environment:

* `model` is the Cohere chat call (`self.client.chat`): from the
  conversation history to a response carrying requested tool calls,
  content items and citations;
* `parseJson` is `json.loads` on a tool call's `arguments` string
  (`none` models a raised `JSONDecodeError`; the schemas make every
  well-formed arguments value a JSON object, modelled as an association
  list);
* `dumpJson` is `json.dumps`;
* `execTool` is `tools.execute_tool` (which dispatches into the network-
  backed tools); `.error e` models a raised exception whose `str` is `e`.

A raised exception escaping `run` is modelled by the `Except.error` result
of `run`; the loop's in-scope state (`messages`, `all_tool_calls`,
`all_audit_logs`) is threaded explicitly. -/

/-- One requested tool invocation in a model response
(`tool_call.id`, `.function.name`, `.function.arguments`). -/
structure ToolCallReq where
  id : String
  name : String
  arguments : String
deriving DecidableEq

/-- One conversation-history entry, with exactly the fields the source
puts in each dict: the seeded user message, the assistant message echoing
the requested calls, and one tool message per executed call carrying the
correlating `tool_call_id` and a content string (a serialized result or
an error message). -/
inductive Message where
  | user (content : String)
  | assistant (tool_calls : List ToolCallReq)
  | tool (tool_call_id : String) (content : String)
deriving DecidableEq

/-- A Cohere citation span. -/
structure Citation where
  text : String
  sources : List String
  start : Nat
  «end» : Nat
deriving DecidableEq

/-- `DefTechAgent._format_citations`. -/
def formatCitations (citations : List Citation) : List Citation :=
  citations.map (fun c =>
    { text := c.text, sources := c.sources, start := c.start, «end» := c.«end» })

/-- The reasoning capability's response: requested tool calls, content
items, citations. -/
structure ModelResponse where
  tool_calls : List ToolCallReq
  content : List String
  citations : List Citation

structure AgentEnv where
  model : List Message → ModelResponse
  parseJson : String → Option (List (String × JVal))
  dumpJson : JVal → String
  execTool : String → List (String × JVal) → Except String JVal

/-- One entry of `all_tool_calls`. -/
structure ToolCallRecord where
  tool : String
  parameters : List (String × JVal)
  result_summary : String

/-- The dict `run` returns. -/
structure RunResult where
  answer : String
  citations : List Citation
  tool_calls : List ToolCallRecord
  audit_logs : List JVal
  steps_taken : Nat

/-- `f"\x7blen(result)\x7d results" if isinstance(result, list) else
str(result.get('success', 'completed'))`. -/
def resultSummary : JVal → String
  | .arr xs => toString xs.length ++ " results"
  | r => pyStr (dictGetD r "success" (.str "completed"))

/-- `if tool_name == "log_access" and "user_id" not in tool_args:
tool_args["user_id"] = user_id` (dict insertion appends the new key). -/
def injectUserId (user_id name : String) (args : List (String × JVal)) :
    List (String × JVal) :=
  if name == "log_access" && !(args.any (fun kv => kv.1 == "user_id")) then
    args ++ [("user_id", .str user_id)]
  else args

/-- Processing of one requested tool call: `json.loads` of the arguments
(outside the `try`, so a failure propagates out of `run`), the `user_id`
injection, then the guarded execution.  On success it yields the tool
message, the `all_tool_calls` record and (for a successful `log_access`)
the `all_audit_logs` entry; on a raised exception it yields only the
synthetic error message, correlated by the call's id. -/
def execOneCall (env : AgentEnv) (user_id : String) (tc : ToolCallReq) :
    Except String (Message × Option ToolCallRecord × Option JVal) :=
  match env.parseJson tc.arguments with
  | none => .error ("json.JSONDecodeError: " ++ tc.arguments)
  | some parsed =>
    let tool_args := injectUserId user_id tc.name parsed
    match env.execTool tc.name tool_args with
    | .ok result =>
        .ok (.tool tc.id (env.dumpJson result),
             some { tool := tc.name, parameters := tool_args,
                    result_summary := resultSummary result },
             if tc.name == "log_access" && truthy (dictGetD result "success" .null)
             then some result else none)
    | .error e =>
        .ok (.tool tc.id ("Error executing " ++ tc.name ++ ": " ++ e), none, none)

/-- The per-round loop over `response.message.tool_calls`, accumulating
the tool messages (appended to the history after the batch), the
`all_tool_calls` records and the `all_audit_logs` entries, in call
order. -/
def execCalls (env : AgentEnv) (user_id : String) :
    List ToolCallReq →
    Except String (List Message × List ToolCallRecord × List JVal)
  | [] => .ok ([], [], [])
  | tc :: rest =>
    match execOneCall env user_id tc with
    | .error e => .error e
    | .ok (m, tr?, aud?) =>
      match execCalls env user_id rest with
      | .error e => .error e
      | .ok (ms, trs, auds) => .ok (m :: ms, tr?.toList ++ trs, aud?.toList ++ auds)

/-- The body of `for step in range(config.MAX_AGENT_STEPS)`, with
`fuel` the number of rounds still allowed (so the source's `step` is
`MAX_AGENT_STEPS - fuel - 1`; `run` always starts this with
`fuel = MAX_AGENT_STEPS`). -/
def runLoop (env : AgentEnv) (user_id : String) :
    Nat → List Message → List ToolCallRecord → List JVal →
    Except String RunResult
  | 0, _, tcs, auds =>
      .ok { answer := "Unable to complete request within step limit."
            citations := []
            tool_calls := tcs, audit_logs := auds
            steps_taken := MAX_AGENT_STEPS }
  | fuel + 1, msgs, tcs, auds =>
      let response := env.model msgs
      if response.tool_calls.isEmpty then
        .ok { answer := (response.content.head?).getD "No response generated"
              citations := formatCitations response.citations
              tool_calls := tcs, audit_logs := auds
              steps_taken := MAX_AGENT_STEPS - fuel }
      else
        match execCalls env user_id response.tool_calls with
        | .error e => .error e
        | .ok (toolMsgs, newTcs, newAuds) =>
            runLoop env user_id fuel
              ((msgs ++ [.assistant response.tool_calls]) ++ toolMsgs)
              (tcs ++ newTcs) (auds ++ newAuds)

/-- `DefTechAgent.run`. -/
def run (env : AgentEnv) (query : String) (user_id : String) :
    Except String RunResult :=
  runLoop env user_id MAX_AGENT_STEPS [.user query] [] []

/-! ### Agent loop lemmas -/

theorem execOneCall_ok (env : AgentEnv) (user_id : String) (tc : ToolCallReq)
    (hp : (env.parseJson tc.arguments).isSome) :
    ∃ out, execOneCall env user_id tc = .ok out := by
  cases hout : execOneCall env user_id tc with
  | ok o => exact ⟨o, rfl⟩
  | error e =>
    exfalso
    unfold execOneCall at hout
    obtain ⟨parsed, hp'⟩ := Option.isSome_iff_exists.mp hp
    rw [hp'] at hout
    cases henv : env.execTool tc.name (injectUserId user_id tc.name parsed) <;>
      simp [henv] at hout

theorem execCalls_ok (env : AgentEnv) (user_id : String)
    (hp : ∀ s, (env.parseJson s).isSome) (calls : List ToolCallReq) :
    ∃ out, execCalls env user_id calls = .ok out := by
  induction calls with
  | nil => exact ⟨_, rfl⟩
  | cons tc rest ih =>
    obtain ⟨⟨m, tr?, aud?⟩, ho⟩ := execOneCall_ok env user_id tc (hp tc.arguments)
    obtain ⟨⟨ms, trs, auds⟩, hos⟩ := ih
    refine ⟨(m :: ms, tr?.toList ++ trs, aud?.toList ++ auds), ?_⟩
    unfold execCalls
    rw [ho, hos]

theorem runLoop_step_limit (env : AgentEnv) (user_id : String)
    (hmodel : ∀ msgs, (env.model msgs).tool_calls ≠ [])
    (hp : ∀ s, (env.parseJson s).isSome) :
    ∀ fuel msgs tcs auds, ∃ r : RunResult,
      runLoop env user_id fuel msgs tcs auds = .ok r ∧
      r.answer = "Unable to complete request within step limit." ∧
      r.citations = [] ∧
      r.steps_taken = MAX_AGENT_STEPS := by
  intro fuel
  induction fuel with
  | zero =>
    intro msgs tcs auds
    exact ⟨_, rfl, rfl, rfl, rfl⟩
  | succ fuel ih =>
    intro msgs tcs auds
    have hne : ((env.model msgs).tool_calls).isEmpty = false := by
      rw [List.isEmpty_eq_false_iff_exists_mem]
      cases hcalls : (env.model msgs).tool_calls with
      | nil => exact absurd hcalls (hmodel msgs)
      | cons a l => exact ⟨a, by simp⟩
    obtain ⟨⟨toolMsgs, newTcs, newAuds⟩, hexec⟩ :=
      execCalls_ok env user_id hp (env.model msgs).tool_calls
    obtain ⟨r, hr, h1, h2, h3⟩ := ih
      ((msgs ++ [.assistant (env.model msgs).tool_calls]) ++ toolMsgs)
      (tcs ++ newTcs) (auds ++ newAuds)
    refine ⟨r, ?_, h1, h2, h3⟩
    show runLoop env user_id (fuel + 1) msgs tcs auds = .ok r
    unfold runLoop
    simp only [hne, Bool.false_eq_true, if_false]
    rw [hexec]
    exact hr

/-- C2: a reasoning capability that requests at least one (well-formed)
tool call on every round drives `run` to the step ceiling: it terminates
with the fixed step-limit answer and `steps_taken = MAX_AGENT_STEPS`. -/
theorem run_step_limit (env : AgentEnv) (query user_id : String)
    (hmodel : ∀ msgs, (env.model msgs).tool_calls ≠ [])
    (hp : ∀ s, (env.parseJson s).isSome) :
    ∃ r : RunResult, run env query user_id = .ok r ∧
      r.answer = "Unable to complete request within step limit." ∧
      r.citations = [] ∧
      r.steps_taken = MAX_AGENT_STEPS :=
  runLoop_step_limit env user_id hmodel hp MAX_AGENT_STEPS [.user query] [] []

/-- A concrete environment whose reasoning capability always requests one
`search_manuals` call, whose arguments always parse, and whose tool
execution always raises. -/
def alwaysToolsEnv : AgentEnv :=
  { model := fun _ =>
      { tool_calls := [{ id := "call_1", name := "search_manuals", arguments := "argsA" }]
        content := [], citations := [] }
    parseJson := fun s => some [("raw", .str s)]
    dumpJson := fun _ => ""
    execTool := fun _ _ => .error "boom" }

/-- C2 witness: the loop hits the ceiling at the concrete environment. -/
theorem run_step_limit_witness :
    ∃ r : RunResult, run alwaysToolsEnv "q" "u" = .ok r ∧
      r.answer = "Unable to complete request within step limit." ∧
      r.citations = [] ∧
      r.steps_taken = MAX_AGENT_STEPS :=
  run_step_limit alwaysToolsEnv "q" "u"
    (fun _ => by simp [alwaysToolsEnv])
    (fun _ => by simp [alwaysToolsEnv])

/-- C7: a reasoning capability whose first response contains no tool
calls makes `run` return after exactly one round with that response's
text, and empty tool-call and audit traces. -/
theorem run_immediate_answer (env : AgentEnv) (query user_id : String)
    (h : (env.model [.user query]).tool_calls = []) :
    run env query user_id = .ok
      { answer := ((env.model [.user query]).content.head?).getD "No response generated"
        citations := formatCitations (env.model [.user query]).citations
        tool_calls := []
        audit_logs := []
        steps_taken := 1 } := by
  show runLoop env user_id (9 + 1) [.user query] [] [] = _
  unfold runLoop
  simp only [h]
  rfl

/-- A concrete environment answering immediately with no tool calls. -/
def immediateEnv : AgentEnv :=
  { model := fun _ => { tool_calls := [], content := ["hello"], citations := [] }
    parseJson := fun _ => none
    dumpJson := fun _ => ""
    execTool := fun _ _ => .ok .null }

/-- C7 witness. -/
theorem run_immediate_answer_witness :
    run immediateEnv "q" "u" = .ok
      { answer := "hello", citations := [], tool_calls := [], audit_logs := []
        steps_taken := 1 } :=
  run_immediate_answer immediateEnv "q" "u" rfl

/-- C3 fails on the code in one detail: the history entry recorded for a
failing tool call is `\x7brole: "tool", tool_call_id, content: "Error
executing \x7bname\x7d: \x7be\x7d"\x7d` — it does not carry the call's
arguments.  Two calls that differ only in their argument strings produce
the identical synthetic error entry. -/
theorem error_entry_omits_arguments :
    execOneCall alwaysToolsEnv "u"
        { id := "call_1", name := "search_manuals", arguments := "argsA" }
      = .ok (.tool "call_1" "Error executing search_manuals: boom", none, none) ∧
    execOneCall alwaysToolsEnv "u"
        { id := "call_1", name := "search_manuals", arguments := "argsB" }
      = .ok (.tool "call_1" "Error executing search_manuals: boom", none, none) ∧
    "argsA" ≠ "argsB" :=
  ⟨rfl, rfl, by decide⟩

/-- C3 (amended): a tool call whose execution raises does not abort the
loop: the conversation history gains a synthetic error entry correlated to
the call's identifier and carrying the tool name and error message (the
arguments are recorded in the assistant message and the internal
tool-results record, not in this entry), and `run` continues as the loop
over the extended history with one round consumed. -/
theorem run_tool_error_continues (env : AgentEnv) (query user_id : String)
    (tc : ToolCallReq) (args : List (String × JVal)) (e : String)
    (hm : (env.model [.user query]).tool_calls = [tc])
    (hp : env.parseJson tc.arguments = some args)
    (he : env.execTool tc.name (injectUserId user_id tc.name args) = .error e) :
    run env query user_id =
      runLoop env user_id (MAX_AGENT_STEPS - 1)
        [.user query, .assistant [tc],
         .tool tc.id ("Error executing " ++ tc.name ++ ": " ++ e)]
        [] [] := by
  have hone : execOneCall env user_id tc
      = .ok (.tool tc.id ("Error executing " ++ tc.name ++ ": " ++ e), none, none) := by
    unfold execOneCall
    rw [hp]
    simp only [he]
  have hexec : execCalls env user_id [tc]
      = .ok ([.tool tc.id ("Error executing " ++ tc.name ++ ": " ++ e)], [], []) := by
    unfold execCalls
    rw [hone]
    rfl
  show runLoop env user_id (9 + 1) [.user query] [] [] = _
  unfold runLoop
  simp only [hm, List.isEmpty_cons, Bool.false_eq_true, if_false]
  rw [hexec]
  rfl

/-- C3 witness: the concrete always-raising environment; the loop
continues from the history containing the synthetic entry. -/
theorem run_tool_error_continues_witness :
    run alwaysToolsEnv "q" "u" =
      runLoop alwaysToolsEnv "u" (MAX_AGENT_STEPS - 1)
        [.user "q",
         .assistant [{ id := "call_1", name := "search_manuals", arguments := "argsA" }],
         .tool "call_1" "Error executing search_manuals: boom"]
        [] [] :=
  run_tool_error_continues alwaysToolsEnv "q" "u"
    { id := "call_1", name := "search_manuals", arguments := "argsA" }
    [("raw", .str "argsA")] "boom" rfl rfl rfl

/-- C9 helper: the first argument string in a batch that fails to decode
aborts the batch with that decode error, provided the earlier calls in
the batch decoded. -/
theorem execCalls_error_of_parse_none (env : AgentEnv) (user_id : String)
    (pre : List ToolCallReq) (tc : ToolCallReq) (post : List ToolCallReq)
    (hpre : ∀ tc' ∈ pre, (env.parseJson tc'.arguments).isSome)
    (hp : env.parseJson tc.arguments = none) :
    execCalls env user_id (pre ++ tc :: post)
      = .error ("json.JSONDecodeError: " ++ tc.arguments) := by
  induction pre with
  | nil =>
    rw [List.nil_append]
    unfold execCalls execOneCall
    rw [hp]
  | cons a pre ih =>
    rw [List.cons_append]
    obtain ⟨⟨m, tr?, aud?⟩, ho⟩ := execOneCall_ok env user_id a (hpre a (by simp))
    unfold execCalls
    simp only [ho]
    rw [ih (fun x hx => hpre x (by simp [hx]))]

/-- C9: the arguments string of a requested tool call is JSON-decoded
before the per-call exception handler is entered, so a call whose
arguments do not decode makes `run` raise out of the loop (no synthetic
error entry, no further rounds) — here for a call in the first requested
batch, after any earlier calls in the batch that decode. -/
theorem run_raises_on_unparseable_arguments (env : AgentEnv)
    (query user_id : String) (pre : List ToolCallReq) (tc : ToolCallReq)
    (post : List ToolCallReq)
    (hm : (env.model [.user query]).tool_calls = pre ++ tc :: post)
    (hpre : ∀ tc' ∈ pre, (env.parseJson tc'.arguments).isSome)
    (hp : env.parseJson tc.arguments = none) :
    run env query user_id = .error ("json.JSONDecodeError: " ++ tc.arguments) := by
  have hne : (pre ++ tc :: post).isEmpty = false := by simp
  show runLoop env user_id (9 + 1) [.user query] [] [] = _
  unfold runLoop
  simp only [hm, hne, Bool.false_eq_true, if_false]
  rw [execCalls_error_of_parse_none env user_id pre tc post hpre hp]

/-- A concrete environment whose model requests a call with undecodable
arguments. -/
def badJsonEnv : AgentEnv :=
  { model := fun _ =>
      { tool_calls := [{ id := "call_1", name := "search_manuals", arguments := "not json" }]
        content := [], citations := [] }
    parseJson := fun _ => none
    dumpJson := fun _ => ""
    execTool := fun _ _ => .ok .null }

/-- C9 witness. -/
theorem run_raises_on_unparseable_arguments_witness :
    run badJsonEnv "q" "u" = .error ("json.JSONDecodeError: " ++ "not json") :=
  run_raises_on_unparseable_arguments badJsonEnv "q" "u" []
    { id := "call_1", name := "search_manuals", arguments := "not json" } []
    rfl (fun x hx => absurd hx (List.not_mem_nil x)) rfl

end DefTech
